import Mathlib

/-!
Verification development for the Emusic recommendation core
(`music/spotify.py`, together with the dashboard post-processing in
`core/views.py`).

The Python functions are shallowly embedded as Lean functions over an
explicit environment (`Env`) that models the external collaborators
(the secondary-catalog HTTP endpoints, `translate_text`, the audio
decoder/feature-extraction chain) and an explicit state (`State`)
holding the track database, the local `previews/` directory listing,
and an instrumentation log of external calls.

Modelling conventions, all read off the source:
* Feature dictionaries are ordered association lists `List (String × ℚ)`
  (Python dicts preserve insertion order; `float` values are modelled as
  rationals, cast to `ℝ` when the cosine is taken). The Python truthiness
  test `if track.audio_features:` is `≠ []` (both `None` and `{}` are
  falsy and behaviourally indistinguishable here, so both are `[]`).
* `sklearn.metrics.pairwise.cosine_similarity` on two 1×n rows is
  `dot a b / (n' a * n' b)` where `n' v` is the l2 norm with zero norms
  replaced by 1 (sklearn's `normalize`), and a shape mismatch between
  the two rows raises `ValueError`.
* Python exceptions that escape `get_recommendations` are the `.error`
  values of `PyError`; state is threaded alongside so that writes that
  happened before a raise remain visible.
* The Django per-call TTL caches (`cache.get`/`cache.set`) are not
  modelled: they may only short-circuit a call with a previously
  returned value and none of the verified properties concern them.
* `translate_text` (from `music/utils.py`) is an uninterpreted
  environment function: its output is only ever passed to the search
  endpoint, which is itself part of the environment.
-/

namespace Emusic

/-- An ordered feature dictionary, e.g. `[("tempo", 120), ...]`. -/
abbrev Feats := List (String × ℚ)

/-- The value list of a feature dictionary: `list(d.values())` after the
`{k: float(v) for k, v in d.items()}` conversion (identity on `ℚ`). -/
def vals (f : Feats) : List ℚ := f.map Prod.snd

/-- A row of the `music_track` table, restricted to the fields
`get_recommendations` reads or writes.  `previewUrl = ""` models a
null/empty `preview_url` (both are falsy); `audioFeatures = []` models a
null or `{}` `audio_features` JSON field (both are falsy). -/
structure TrackRec where
  spotifyId : String
  title : String
  artistNames : List String
  album : String
  previewUrl : String
  audioFeatures : Feats
deriving Repr, DecidableEq

/-- A `stored_tracks` element as passed by the dashboard: a dict with
`id`, `name` and `artist` keys (only these are read). -/
structure StoredTrack where
  id : String
  name : String
  artist : String
deriving Repr, DecidableEq

/-- A JioSaavn search hit, restricted to the two fields the code reads:
`song['id']` (seed path) and `results[0]['preview_url']` (candidate path). -/
structure SearchHit where
  id : String
  previewUrl : String
deriving Repr, DecidableEq

/-- A JioSaavn track-detail record, restricted to the read field
`target_track['preview_url']`. -/
structure DetailRec where
  previewUrl : String
deriving Repr, DecidableEq

/-- One element of the returned `recommendations` list:
`{'id': ..., 'similarity': ...}`. -/
structure SimEntry where
  id : String
  similarity : ℝ

/-- Python exceptions that can escape `get_recommendations`. -/
inductive PyError where
  /-- `Track.objects.get` found no row (`Track.DoesNotExist`). -/
  | doesNotExist
  /-- `search_jiosaavn(...)[0]` on an empty result list. -/
  | indexError
  /-- `None.items()` when feature extraction returned `None`. -/
  | attributeError
  /-- sklearn shape check on vectors of different lengths. -/
  | valueError
deriving Repr, DecidableEq

/-- Instrumentation: one entry per external call, tagged with the track id
being resolved when the call was made. -/
inductive Event where
  /-- a `search_jiosaavn` (or seed detail-lookup) text query. -/
  | search (tag : String) (query : String)
  /-- an HTTP GET of a preview URL inside `download_preview`. -/
  | download (tag : String) (url : String)
  /-- a `librosa.load`-based `extract_audio_features` call. -/
  | extract (tag : String) (path : String)
deriving Repr, DecidableEq

/-- The track id an event is attributed to. -/
def Event.tag : Event → String
  | .search t _ => t
  | .download t _ => t
  | .extract t _ => t

/-- External collaborators of `get_recommendations`. -/
structure Env where
  /-- `translate_text` from `music/utils.py` (uninterpreted). -/
  translate : String → String
  /-- `search_jiosaavn query` (the TTL cache layer is transparent for a
  fixed environment). -/
  search : String → List SearchHit
  /-- `get_track_details_jiosaavn id`. -/
  details : String → DetailRec
  /-- `requests.get(url).status_code == 200`. -/
  http : String → Bool
  /-- the `librosa.load` + feature computation chain of
  `extract_audio_features`: `none` models a decode failure (the function
  returns `None`), `some f` a successful 8-feature dictionary. -/
  extract : String → Option Feats

/-- Mutable world state threaded through a call. -/
structure State where
  /-- the `music_track` table. -/
  db : List TrackRec
  /-- `os.listdir(MEDIA_ROOT/previews)`: the file names in the previews
  directory. -/
  fs : List String
  /-- instrumentation log (grows at the end). -/
  log : List Event

/-- `Track.objects.filter(spotify_id=id).first()` / the lookup inside
`Track.objects.get` (rows have unique `spotify_id`). -/
def dbGet (db : List TrackRec) (id : String) : Option TrackRec :=
  db.find? (fun t => t.spotifyId == id)

/-- `obj.save()` after mutating the row with the given `spotify_id`. -/
def dbSet (db : List TrackRec) (id : String) (upd : TrackRec → TrackRec) :
    List TrackRec :=
  db.map (fun t => if t.spotifyId == id then upd t else t)

/-- `track.audio_features = f; track.save()`. -/
def setFeatures (s : State) (id : String) (f : Feats) : State :=
  { s with db := dbSet s.db id (fun t => { t with audioFeatures := f }) }

/-- `track.preview_url = u; track.save()`. -/
def setPreviewUrl (s : State) (id : String) (u : String) : State :=
  { s with db := dbSet s.db id (fun t => { t with previewUrl := u }) }

/-- Append an instrumentation event. -/
def logEvent (s : State) (e : Event) : State :=
  { s with log := s.log ++ [e] }

/-- Python `str.strip()`: drop whitespace at both ends (written with
structural recursion so concrete instances reduce in the kernel;
`String.trim` computes the same string). -/
def pyStrip (s : String) : String :=
  ⟨((s.data.dropWhile Char.isWhitespace).reverse.dropWhile
      Char.isWhitespace).reverse⟩

/-- Python `u.startswith("http")` (again via structural recursion). -/
def startsWithHttp (u : String) : Bool :=
  "http".data.isPrefixOf u.data

/-- The file name `f'{track_id}.mp3'` written into the previews dir. -/
def fileNameFor (id : String) : String := id ++ ".mp3"

/-- `os.path.join(MEDIA_ROOT, 'previews', f'{track_id}.mp3')`. -/
def pathFor (id : String) : String := "previews/" ++ id ++ ".mp3"

/-- `download_preview(preview_url, track_id)` (spotify.py lines 318-330).
Returns the local path (or `None`) together with the updated state.
Note the membership test is the code's own `track_id in os.listdir(...)`,
which compares the bare id against file names of the form `f'{id}.mp3'`. -/
def download_preview (env : Env) (s : State) (previewUrl : String)
    (trackId : String) : Option String × State :=
  if startsWithHttp previewUrl then
    -- `if track_id in os.listdir(...)`: return the canonical path, no request
    if trackId ∈ s.fs then (some (pathFor trackId), s)
    else
      let s1 := logEvent s (.download trackId previewUrl)
      if env.http previewUrl then
        (some (pathFor trackId),
          { s1 with fs := if fileNameFor trackId ∈ s1.fs then s1.fs
                          else s1.fs ++ [fileNameFor trackId] })
      else (none, s1)
  else
    -- `if not preview_url or not preview_url.startswith("http")`
    (none, s)

/-- The seed search string
`f"{track.title} {''.join(artist names)} {track.album}".strip()`. -/
def seedSearchText (t : TrackRec) : String :=
  pyStrip (t.title ++ " " ++ String.join t.artistNames ++ " " ++ t.album)

/-- The candidate search string `f"{name} {artist}"`. -/
def candSearchText (c : StoredTrack) : String :=
  c.name ++ " " ++ c.artist

/-- `zipWith (*) |> sum` — the dot product of `np.array` value lists. -/
def dotq : List ℚ → List ℚ → ℚ
  | [], _ => 0
  | _, [] => 0
  | a :: as, b :: bs => a * b + dotq as bs

/-- `dot v v`, the squared l2 norm. -/
def sumSq (v : List ℚ) : ℚ := dotq v v

/-- sklearn `normalize`'s row norm: the l2 norm with an exact zero norm
replaced by `1`. -/
noncomputable def sklNorm (v : List ℚ) : ℝ :=
  if sumSq v = 0 then 1 else Real.sqrt (sumSq v)

/-- The value `cosine_similarity(a.reshape(1,-1), b.reshape(1,-1))[0][0]`
computes when the shapes are compatible. -/
noncomputable def simVal (a b : List ℚ) : ℝ :=
  ((dotq a b : ℚ) : ℝ) / (sklNorm a * sklNorm b)

/-- `cosine_similarity` including its shape check: two 1×n rows must have
the same `n`, otherwise `ValueError`. -/
noncomputable def cosineSimilarity (a b : List ℚ) : Except PyError ℝ :=
  if a.length = b.length then .ok (simVal a b) else .error .valueError

/-- Lines 356-362, the tail of the seed compute path applied to the
result of `download_preview`: on a missing preview file the whole call
returns `[]` (`.ok none`); otherwise extract, persist, and either hand
back the features or raise.  A decode failure first persists the `None`
(`track.audio_features = None; track.save()`) and then raises
AttributeError at the `None.items()` of line 364. -/
def seedTail (env : Env) (tid : String) :
    Option String × State → Except PyError (Option Feats) × State
  | (none, s3) => (.ok none, s3)  -- `return []`
  | (some path, s3) =>
    let s4 := logEvent s3 (.extract tid path)
    match env.extract path with
    | none => (.error .attributeError, setFeatures s4 tid [])
    | some tf => (.ok (some tf), setFeatures s4 tid tf)

/-- Seed feature resolution (spotify.py lines 341-362), up to and
including the writes to `track.preview_url` / `track.audio_features`.
`.ok none` is the early `return []` on a failed preview download;
`.error` is an escaping Python exception. -/
def seedResolve (env : Env) (s : State) (track : TrackRec) :
    Except PyError (Option Feats) × State :=
  if track.audioFeatures = [] then
    let q := env.translate (seedSearchText track)
    let s1 := logEvent s (.search track.spotifyId q)
    match env.search q with
    | [] =>
      -- `search_jiosaavn(translated_text)[0]` on an empty list
      (.error .indexError, s1)
    | hit :: _ =>
      let tt := env.details hit.id
      let s2 := if track.previewUrl = "" then
                  setPreviewUrl s1 track.spotifyId tt.previewUrl
                else s1
      seedTail env track.spotifyId
        (download_preview env s2 tt.previewUrl track.spotifyId)
  else (.ok (some track.audioFeatures), s)

/-- Candidate feature resolution (spotify.py lines 368-392).
`.ok none` is a `continue` (candidate skipped); `.error` an escaping
exception. -/
def candidateFeatures (env : Env) (s : State) (c : StoredTrack) :
    Except PyError (Option Feats) × State :=
  let stored := dbGet s.db c.id
  match stored with
  | some song =>
    if song.audioFeatures = [] then candidateCompute env s c
    else (.ok (some song.audioFeatures), s)
  | none => candidateCompute env s c
where
  /-- the `except Track.DoesNotExist` arm: search, download, extract,
  then persist the result if the row exists. -/
  candidateCompute (env : Env) (s : State) (c : StoredTrack) :
      Except PyError (Option Feats) × State :=
    let s1 := logEvent s (.search c.id (candSearchText c))
    match env.search (candSearchText c) with
    | [] => (.ok none, s1)  -- `if not results: continue`
    | hit :: _ =>
      match download_preview env s1 hit.previewUrl c.id with
      | (none, s2) => (.ok none, s2)  -- `if not preview_path: continue`
      | (some path, s2) =>
        let s3 := logEvent s2 (.extract c.id path)
        match env.extract path with
        | none =>
          -- `stored_song.audio_features = None; save()` (if the row
          -- exists) and then `None.items()` at line 394 raises
          let s4 := match dbGet s3.db c.id with
                    | some _ => setFeatures s3 c.id []
                    | none => s3
          (.error .attributeError, s4)
        | some f =>
          let s4 := match dbGet s3.db c.id with
                    | some _ => setFeatures s3 c.id f
                    | none => s3
          (.ok (some f), s4)

/-- One iteration of the `for stored_track in stored_tracks` loop
(spotify.py lines 367-406): resolve features, then compute the cosine
similarity entry.  `.ok none` means the candidate was skipped. -/
noncomputable def candidateStep (env : Env) (tf : Feats) (s : State)
    (c : StoredTrack) : Except PyError (Option SimEntry) × State :=
  match candidateFeatures env s c with
  | (.error e, s') => (.error e, s')
  | (.ok none, s') => (.ok none, s')
  | (.ok (some f), s') =>
    match cosineSimilarity (vals tf) (vals f) with
    | .error e => (.error e, s')
    | .ok sim => (.ok (some ⟨c.id, sim⟩), s')

/-- The whole candidate loop, accumulating the `similarities` list in
input order and threading the state. -/
noncomputable def candidatesLoop (env : Env) (tf : Feats) :
    State → List StoredTrack → Except PyError (List SimEntry) × State
  | s, [] => (.ok [], s)
  | s, c :: cs =>
    match candidateStep env tf s c with
    | (.error e, s') => (.error e, s')
    | (.ok oe, s') =>
      match candidatesLoop env tf s' cs with
      | (.error e, s'') => (.error e, s'')
      | (.ok l, s'') =>
        (.ok (match oe with | none => l | some e => e :: l), s'')

/-- The comparison `sorted(..., key=lambda x: x['similarity'],
reverse=True)` effectively sorts by: `a` comes before-or-with `b`
exactly when `a`'s similarity is at least `b`'s. -/
def simGE (a b : SimEntry) : Prop := b.similarity ≤ a.similarity

noncomputable instance : DecidableRel simGE :=
  fun a b => inferInstanceAs (Decidable (b.similarity ≤ a.similarity))

/-- Line 408: `sorted(similarities, key=lambda x: x['similarity'],
reverse=True)[:limit]` — a stable descending sort followed by
truncation. -/
noncomputable def rank (sims : List SimEntry) (limit : Nat) : List SimEntry :=
  (List.insertionSort simGE sims).take limit

/-- `get_recommendations(track_id, stored_tracks, limit)` (spotify.py
lines 333-410), with the TTL cache layer omitted (see the header note). -/
noncomputable def getRecommendations (env : Env) (s : State) (trackId : String)
    (storedTracks : List StoredTrack) (limit : Nat) :
    Except PyError (List SimEntry) × State :=
  match dbGet s.db trackId with
  | none => (.error .doesNotExist, s)
  | some track =>
    match seedResolve env s track with
    | (.error e, s') => (.error e, s')
    | (.ok none, s') => (.ok [], s')
    | (.ok (some tf), s') =>
      match candidatesLoop env tf s' storedTracks with
      | (.error e, s'') => (.error e, s'')
      | (.ok sims, s'') => (.ok (rank sims limit), s'')

/-- The dashboard's post-processing of the returned recommendation list
(core/views.py line 58):
`list({track['id']: track for track in recommendation_ids}.values())` —
a Python dict keyed by id keeps the first-insertion position of each key
and the last value written to it. -/
def dedupById (l : List SimEntry) : List SimEntry :=
  l.foldl
    (fun acc e =>
      if acc.any (fun x => x.id == e.id) then
        acc.map (fun x => if x.id == e.id then e else x)
      else acc ++ [e])
    []

/-- First-occurrence id order of a list of ids. -/
def firstOccs (l : List String) : List String :=
  l.foldl (fun acc x => if x ∈ acc then acc else acc ++ [x]) []

/-- The features the db currently stores for an id (`[]` when the row is
missing or the field is falsy). -/
def featsAt (db : List TrackRec) (id : String) : Feats :=
  match dbGet db id with
  | some t => t.audioFeatures
  | none => []

/-- The `similarities` list the loop builds when every candidate resolves
from the store: one entry per candidate, in input order. -/
noncomputable def simsOf (tf : Feats) (db : List TrackRec)
    (cands : List StoredTrack) : List SimEntry :=
  cands.map (fun c => ⟨c.id, simVal (vals tf) (vals (featsAt db c.id))⟩)

/-- Events attributed to a given track id. -/
def eventsFor (id : String) (log : List Event) : List Event :=
  log.filter (fun e => e.tag == id)

/-! ### Arithmetic facts about the embedded cosine -/

lemma sumSq_cons (x : ℚ) (xs : List ℚ) :
    sumSq (x :: xs) = x * x + sumSq xs := rfl

lemma sumSq_nonneg : ∀ v : List ℚ, 0 ≤ sumSq v
  | [] => le_refl 0
  | x :: xs => by
    rw [sumSq_cons]
    exact add_nonneg (mul_self_nonneg x) (sumSq_nonneg xs)

/-- Self-similarity of any vector of nonzero norm is exactly 1. -/
lemma simVal_self (v : List ℚ) (h : sumSq v ≠ 0) : simVal v v = 1 := by
  have h0 : (0 : ℝ) ≤ (sumSq v : ℝ) := by exact_mod_cast sumSq_nonneg v
  have hne : ((sumSq v : ℚ) : ℝ) ≠ 0 := by exact_mod_cast h
  unfold simVal sklNorm
  rw [if_neg h, Real.mul_self_sqrt h0]
  exact div_self hne

lemma dotq_nil_left (w : List ℚ) : dotq [] w = 0 := by cases w <;> rfl

lemma dotq_replicate_zero : ∀ (v : List ℚ) (n : Nat),
    dotq v (List.replicate n 0) = 0
  | [], n => dotq_nil_left _
  | _ :: _, 0 => rfl
  | x :: xs, n + 1 => by
    rw [List.replicate_succ]
    show x * 0 + dotq xs (List.replicate n 0) = 0
    rw [mul_zero, dotq_replicate_zero xs n, zero_add]

/-- The similarity against an all-zero vector is 0 (sklearn replaces the
zero norm by 1, so no division by zero occurs). -/
lemma simVal_replicate_zero (v : List ℚ) (n : Nat) :
    simVal v (List.replicate n 0) = 0 := by
  unfold simVal
  rw [dotq_replicate_zero]
  simp

/-! ### The sort at line 408: stability, sortedness, truncation -/

instance : IsTotal SimEntry simGE := ⟨fun a b => le_total b.similarity a.similarity⟩

instance : IsTrans SimEntry simGE := ⟨fun _ _ _ h1 h2 => le_trans h2 h1⟩

lemma filter_orderedInsert_simval (x : ℝ) (a : SimEntry) :
    ∀ l : List SimEntry,
      (List.orderedInsert simGE a l).filter (fun e => e.similarity = x) =
        if a.similarity = x then
          a :: l.filter (fun e => e.similarity = x)
        else l.filter (fun e => e.similarity = x)
  | [] => by
    by_cases ha : a.similarity = x <;>
      simp [List.orderedInsert, List.filter, ha]
  | b :: l => by
    simp only [List.orderedInsert]
    by_cases hab : simGE a b
    · rw [if_pos hab]
      by_cases ha : a.similarity = x <;> by_cases hb : b.similarity = x <;>
        simp [List.filter_cons, ha, hb]
    · rw [if_neg hab]
      have ih := filter_orderedInsert_simval x a l
      by_cases ha : a.similarity = x
      · by_cases hb : b.similarity = x
        · exact absurd (le_of_eq (hb.trans ha.symm)) hab
        · simp [List.filter_cons, ha, hb, ih]
      · by_cases hb : b.similarity = x <;> simp [List.filter_cons, ha, hb, ih]

/-- Stability of the line-408 sort: entries of any one exact similarity
value appear in the sorted list exactly as they appeared in the input. -/
lemma filter_insertionSort_simval (x : ℝ) : ∀ l : List SimEntry,
    (List.insertionSort simGE l).filter (fun e => e.similarity = x) =
      l.filter (fun e => e.similarity = x)
  | [] => rfl
  | a :: l => by
    simp only [List.insertionSort]
    rw [filter_orderedInsert_simval, filter_insertionSort_simval x l,
      List.filter_cons]
    by_cases ha : a.similarity = x <;> simp [ha]

/-- Filtering a truncation yields a truncation of the filtering. -/
lemma filter_take_eq_take_filter {α : Type} (p : α → Bool) :
    ∀ (l : List α) (n : Nat), ∃ k, (l.take n).filter p = (l.filter p).take k
  | _, 0 => ⟨0, by simp⟩
  | [], n => ⟨0, by simp⟩
  | a :: l, n + 1 => by
    obtain ⟨k, hk⟩ := filter_take_eq_take_filter p l n
    by_cases hp : p a
    · exact ⟨k + 1, by simp [List.filter_cons, hp, hk]⟩
    · exact ⟨k, by simp [List.filter_cons, hp, hk]⟩

/-! ### Database and log bookkeeping -/

lemma dbGet_spotifyId {db : List TrackRec} {id : String} {t : TrackRec}
    (h : dbGet db id = some t) : t.spotifyId = id := by
  have := List.find?_some h
  simpa using this

lemma dbGet_cons (t : TrackRec) (ts : List TrackRec) (id : String) :
    dbGet (t :: ts) id =
      if (t.spotifyId == id) = true then some t else dbGet ts id := by
  cases h : t.spotifyId == id <;> simp [dbGet, List.find?_cons, h]

lemma dbSet_cons (t : TrackRec) (ts : List TrackRec) (id : String)
    (upd : TrackRec → TrackRec) :
    dbSet (t :: ts) id upd =
      (if (t.spotifyId == id) = true then upd t else t) :: dbSet ts id upd :=
  rfl

lemma dbGet_dbSet_ne (db : List TrackRec) (id₁ id₂ : String)
    (upd : TrackRec → TrackRec)
    (hupd : ∀ t, (upd t).spotifyId = t.spotifyId) (h : id₂ ≠ id₁) :
    dbGet (dbSet db id₁ upd) id₂ = dbGet db id₂ := by
  induction db with
  | nil => rfl
  | cons t ts ih =>
    rw [dbSet_cons, dbGet_cons, dbGet_cons]
    cases h1 : t.spotifyId == id₁ with
    | true =>
      have ht : t.spotifyId = id₁ := by simpa using h1
      simp [h1, hupd t, ht, (Ne.symm h : id₁ ≠ id₂), ih]
    | false =>
      cases h2 : t.spotifyId == id₂ <;> simp [h1, h2, ih]

lemma dbGet_dbSet_same (db : List TrackRec) (id : String)
    (upd : TrackRec → TrackRec)
    (hupd : ∀ t, (upd t).spotifyId = t.spotifyId) :
    dbGet (dbSet db id upd) id = (dbGet db id).map upd := by
  induction db with
  | nil => rfl
  | cons t ts ih =>
    rw [dbSet_cons, dbGet_cons, dbGet_cons]
    cases h1 : t.spotifyId == id with
    | true =>
      have ht : t.spotifyId = id := by simpa using h1
      simp [h1, hupd t, ht]
    | false => simp [h1, ih]

lemma eventsFor_append (id : String) (l₁ l₂ : List Event) :
    eventsFor id (l₁ ++ l₂) = eventsFor id l₁ ++ eventsFor id l₂ := by
  simp [eventsFor, List.filter_append]

lemma eventsFor_snoc_ne (id : String) (l : List Event) (e : Event)
    (h : e.tag ≠ id) : eventsFor id (l ++ [e]) = eventsFor id l := by
  simp [eventsFor, List.filter_append, List.filter_cons, h]

/-! ### `download_preview` facts -/

lemma download_preview_db (env : Env) (s : State) (u i : String) :
    (download_preview env s u i).2.db = s.db := by
  unfold download_preview logEvent
  split_ifs <;> rfl

lemma download_preview_log_ne (env : Env) (s : State) (u i id : String)
    (h : i ≠ id) :
    eventsFor id (download_preview env s u i).2.log = eventsFor id s.log := by
  unfold download_preview logEvent
  split_ifs <;> first
    | rfl
    | exact eventsFor_snoc_ne id s.log _ h

lemma download_preview_success (env : Env) (s : State) (u i : String)
    (hu : startsWithHttp u = true) (hh : env.http u = true) :
    (download_preview env s u i).1 = some (pathFor i) := by
  unfold download_preview
  rw [if_pos hu]
  by_cases hm : i ∈ s.fs
  · rw [if_pos hm]
  · rw [if_neg hm]
    simp only [logEvent, hh, if_true]

/-! ### Step-level facts about candidate resolution -/

lemma candidateFeatures_stored (env : Env) (s : State) (c : StoredTrack)
    (song : TrackRec) (h : dbGet s.db c.id = some song)
    (hne : song.audioFeatures ≠ []) :
    candidateFeatures env s c = (.ok (some song.audioFeatures), s) := by
  unfold candidateFeatures
  rw [h]
  simp [hne]

lemma candidateStep_stored (env : Env) (tf : Feats) (s : State)
    (c : StoredTrack) (song : TrackRec) (h : dbGet s.db c.id = some song)
    (hne : song.audioFeatures ≠ [])
    (hlen : (vals tf).length = (vals song.audioFeatures).length) :
    candidateStep env tf s c =
      (.ok (some ⟨c.id, simVal (vals tf) (vals song.audioFeatures)⟩), s) := by
  unfold candidateStep
  rw [candidateFeatures_stored env s c song h hne]
  dsimp only
  unfold cosineSimilarity
  rw [if_pos hlen]

lemma seedResolve_stored (env : Env) (s : State) (track : TrackRec)
    (h : track.audioFeatures ≠ []) :
    seedResolve env s track = (.ok (some track.audioFeatures), s) := by
  unfold seedResolve
  rw [if_neg h]

/-! ### Preservation: resolving one candidate never touches another id's
row nor logs events for it -/

lemma setFeatures_db_ne (s : State) (id₁ id₂ : String) (f : Feats)
    (h : id₂ ≠ id₁) :
    dbGet (setFeatures s id₁ f).db id₂ = dbGet s.db id₂ :=
  dbGet_dbSet_ne _ _ _ _ (fun _ => rfl) h

lemma candidateCompute_preserves (env : Env) (s : State) (c : StoredTrack)
    (id : String) (hc : c.id ≠ id) :
    dbGet (candidateFeatures.candidateCompute env s c).2.db id = dbGet s.db id ∧
      eventsFor id (candidateFeatures.candidateCompute env s c).2.log =
        eventsFor id s.log := by
  unfold candidateFeatures.candidateCompute
  cases hs : env.search (candSearchText c) with
  | nil =>
    exact ⟨rfl, eventsFor_snoc_ne id s.log _ hc⟩
  | cons hit rest =>
    dsimp only
    rcases hdp : download_preview env (logEvent s (.search c.id (candSearchText c)))
        hit.previewUrl c.id with ⟨p, s2⟩
    have hdb2 : s2.db = s.db := by
      have := download_preview_db env
        (logEvent s (.search c.id (candSearchText c))) hit.previewUrl c.id
      rw [hdp] at this
      exact this
    have hlog2 : eventsFor id s2.log = eventsFor id s.log := by
      have := download_preview_log_ne env
        (logEvent s (.search c.id (candSearchText c))) hit.previewUrl c.id id hc
      rw [hdp] at this
      rw [this]
      exact eventsFor_snoc_ne id s.log _ hc
    cases p with
    | none => exact ⟨by rw [hdb2], hlog2⟩
    | some path =>
      dsimp only
      have hlog3 : eventsFor id (logEvent s2 (.extract c.id path)).log =
          eventsFor id s.log := by
        rw [show (logEvent s2 (.extract c.id path)).log = s2.log ++ [.extract c.id path] from rfl,
          eventsFor_snoc_ne id s2.log (.extract c.id path)
            (show (Event.extract c.id path).tag ≠ id from hc), hlog2]
      cases hx : env.extract path with
      | none =>
        dsimp only
        cases hg : dbGet (logEvent s2 (.extract c.id path)).db c.id with
        | none => exact ⟨by rw [show (logEvent s2 _).db = s2.db from rfl, hdb2], hlog3⟩
        | some song =>
          refine ⟨?_, hlog3⟩
          rw [setFeatures_db_ne _ _ _ _ (fun he => hc he.symm)]
          rw [show (logEvent s2 (.extract c.id path)).db = s2.db from rfl, hdb2]
      | some f =>
        dsimp only
        cases hg : dbGet (logEvent s2 (.extract c.id path)).db c.id with
        | none => exact ⟨by rw [show (logEvent s2 _).db = s2.db from rfl, hdb2], hlog3⟩
        | some song =>
          refine ⟨?_, hlog3⟩
          rw [setFeatures_db_ne _ _ _ _ (fun he => hc he.symm)]
          rw [show (logEvent s2 (.extract c.id path)).db = s2.db from rfl, hdb2]

lemma candidateFeatures_preserves (env : Env) (s : State) (c : StoredTrack)
    (id : String) (tr : TrackRec)
    (h : dbGet s.db id = some tr) (hne : tr.audioFeatures ≠ []) :
    dbGet (candidateFeatures env s c).2.db id = some tr ∧
      eventsFor id (candidateFeatures env s c).2.log = eventsFor id s.log := by
  by_cases hc : c.id = id
  · rw [candidateFeatures_stored env s c tr (by rw [hc]; exact h) hne]
    exact ⟨h, rfl⟩
  · unfold candidateFeatures
    cases hg : dbGet s.db c.id with
    | none =>
      dsimp only
      have := candidateCompute_preserves env s c id hc
      exact ⟨this.1.trans h, this.2⟩
    | some song =>
      dsimp only
      by_cases hempty : song.audioFeatures = []
      · rw [if_pos hempty]
        have := candidateCompute_preserves env s c id hc
        exact ⟨this.1.trans h, this.2⟩
      · rw [if_neg hempty]
        exact ⟨h, rfl⟩

lemma candidateStep_preserves (env : Env) (tf : Feats) (s : State)
    (c : StoredTrack) (id : String) (tr : TrackRec)
    (h : dbGet s.db id = some tr) (hne : tr.audioFeatures ≠ []) :
    dbGet (candidateStep env tf s c).2.db id = some tr ∧
      eventsFor id (candidateStep env tf s c).2.log = eventsFor id s.log := by
  unfold candidateStep
  rcases hcf : candidateFeatures env s c with ⟨r, s'⟩
  have hp := candidateFeatures_preserves env s c id tr h hne
  rw [hcf] at hp
  cases r with
  | error e => exact hp
  | ok of =>
    cases of with
    | none => exact hp
    | some f =>
      dsimp only
      cases hcs : cosineSimilarity (vals tf) (vals f) with
      | error e => exact hp
      | ok sim => exact hp

lemma candidatesLoop_preserves (env : Env) (tf : Feats) (id : String)
    (tr : TrackRec) :
    ∀ (cands : List StoredTrack) (s : State),
      dbGet s.db id = some tr → tr.audioFeatures ≠ [] →
      dbGet (candidatesLoop env tf s cands).2.db id = some tr ∧
        eventsFor id (candidatesLoop env tf s cands).2.log = eventsFor id s.log
  | [], s, h, _ => ⟨h, rfl⟩
  | c :: cs, s, h, hne => by
    unfold candidatesLoop
    rcases hst : candidateStep env tf s c with ⟨r, s'⟩
    have hp := candidateStep_preserves env tf s c id tr h hne
    rw [hst] at hp
    cases r with
    | error e => exact hp
    | ok oe =>
      dsimp only
      have ih := candidatesLoop_preserves env tf id tr cs s' hp.1 hne
      rcases hlp : candidatesLoop env tf s' cs with ⟨r2, s''⟩
      rw [hlp] at ih
      cases r2 with
      | error e => exact ⟨ih.1, ih.2.trans hp.2⟩
      | ok l => exact ⟨ih.1, ih.2.trans hp.2⟩

/-! ### The all-resolved run (for the ranking claim) -/

lemma candidatesLoop_all_stored (env : Env) (tf : Feats) :
    ∀ (cands : List StoredTrack) (s : State),
      (∀ c ∈ cands, featsAt s.db c.id ≠ [] ∧
        (vals tf).length = (vals (featsAt s.db c.id)).length) →
      candidatesLoop env tf s cands = (.ok (simsOf tf s.db cands), s)
  | [], s, _ => rfl
  | c :: cs, s, h => by
    obtain ⟨hne, hlen⟩ := h c (List.mem_cons_self c cs)
    have hrec : ∃ song, dbGet s.db c.id = some song := by
      unfold featsAt at hne
      cases hg : dbGet s.db c.id with
      | none => rw [hg] at hne; exact absurd rfl hne
      | some song => exact ⟨song, rfl⟩
    obtain ⟨song, hsong⟩ := hrec
    have hfa : featsAt s.db c.id = song.audioFeatures := by
      unfold featsAt
      rw [hsong]
    rw [hfa] at hne hlen
    unfold candidatesLoop
    rw [candidateStep_stored env tf s c song hsong hne hlen]
    dsimp only
    rw [candidatesLoop_all_stored env tf cs s
      (fun c' hc' => h c' (List.mem_cons_of_mem c hc'))]
    unfold simsOf
    rw [List.map_cons, hfa]

/-! ### Properties of the line-408 ranking -/

lemma rank_length_le_limit (l : List SimEntry) (n : Nat) :
    (rank l n).length ≤ n := by
  unfold rank
  exact List.length_take_le n _

lemma rank_length_le_input (l : List SimEntry) (n : Nat) :
    (rank l n).length ≤ l.length := by
  unfold rank
  rw [List.length_take, List.length_insertionSort]
  exact min_le_right _ _

lemma rank_pairwise (l : List SimEntry) (n : Nat) :
    List.Pairwise simGE (rank l n) := by
  unfold rank
  exact (List.sorted_insertionSort simGE l).sublist (List.take_sublist n _)

lemma rank_stable (l : List SimEntry) (n : Nat) (x : ℝ) :
    ∃ k, (rank l n).filter (fun e => e.similarity = x) =
      (l.filter (fun e => e.similarity = x)).take k := by
  unfold rank
  obtain ⟨k, hk⟩ := filter_take_eq_take_filter
    (fun e => decide (e.similarity = x)) (List.insertionSort simGE l) n
  exact ⟨k, by rw [hk, filter_insertionSort_simval]⟩

/-- When the seed's stored features are populated, `get_recommendations`
reduces to the candidate loop followed by the ranking. -/
lemma getRecommendations_stored (env : Env) (s : State) (trackId : String)
    (cands : List StoredTrack) (limit : Nat) (track : TrackRec)
    (h : dbGet s.db trackId = some track) (hne : track.audioFeatures ≠ []) :
    getRecommendations env s trackId cands limit =
      (match candidatesLoop env track.audioFeatures s cands with
       | (.error e, s') => (.error e, s')
       | (.ok sims, s') => (.ok (rank sims limit), s')) := by
  unfold getRecommendations
  rw [h]
  dsimp only
  rw [seedResolve_stored env s track hne]

/-! ### Claim C1 -/

/-- Claim C1: for every seed whose feature vector resolves (here: is
stored), every list of candidates that all resolve (stored, with vectors
of the seed's length) and every limit, `get_recommendations` returns
exactly the ranked list: its length is at most `limit` and at most the
number of resolved candidates, it is sorted by similarity descending
(`simGE`-pairwise), and entries of any one exact similarity value appear
as a truncation of their input-order subsequence (stable ties). -/
theorem claim_C1_rank_contract (env : Env) (s : State) (trackId : String)
    (cands : List StoredTrack) (limit : Nat) (track : TrackRec)
    (hseed : dbGet s.db trackId = some track)
    (hne : track.audioFeatures ≠ [])
    (hres : ∀ c ∈ cands, featsAt s.db c.id ≠ [] ∧
      (vals track.audioFeatures).length = (vals (featsAt s.db c.id)).length) :
    (getRecommendations env s trackId cands limit).1 =
      .ok (rank (simsOf track.audioFeatures s.db cands) limit) ∧
    (rank (simsOf track.audioFeatures s.db cands) limit).length ≤ limit ∧
    (rank (simsOf track.audioFeatures s.db cands) limit).length ≤ cands.length ∧
    List.Pairwise simGE (rank (simsOf track.audioFeatures s.db cands) limit) ∧
    ∀ x : ℝ, ∃ k,
      (rank (simsOf track.audioFeatures s.db cands) limit).filter
          (fun e => e.similarity = x) =
        ((simsOf track.audioFeatures s.db cands).filter
          (fun e => e.similarity = x)).take k := by
  refine ⟨?_, rank_length_le_limit _ _, ?_, rank_pairwise _ _,
    fun x => rank_stable _ _ x⟩
  · rw [getRecommendations_stored env s trackId cands limit track hseed hne,
      candidatesLoop_all_stored env track.audioFeatures cands s hres]
  · have h1 := rank_length_le_input (simsOf track.audioFeatures s.db cands) limit
    have h2 : (simsOf track.audioFeatures s.db cands).length = cands.length := by
      simp [simsOf]
    rw [h2] at h1
    exact h1

/-- A do-nothing environment: empty search results, failing HTTP,
failing decoder. -/
def envNop : Env :=
  ⟨id, fun _ => [], fun _ => ⟨""⟩, fun _ => false, fun _ => none⟩

def trackS0 : TrackRec := ⟨"s0", "Seed", [], "", "", [("tempo", 2)]⟩
def trackC1r : TrackRec := ⟨"c1", "CandA", [], "", "", [("tempo", 3)]⟩
def trackC2r : TrackRec := ⟨"c2", "CandB", [], "", "", [("tempo", 5)]⟩

def stateW : State := ⟨[trackS0, trackC1r, trackC2r], [], []⟩

def candsW : List StoredTrack := [⟨"c1", "CandA", "A"⟩, ⟨"c2", "CandB", "B"⟩]

theorem claim_C1_rank_contract_witness :
    (getRecommendations envNop stateW "s0" candsW 1).1 =
      .ok (rank (simsOf trackS0.audioFeatures stateW.db candsW) 1) ∧
    (rank (simsOf trackS0.audioFeatures stateW.db candsW) 1).length ≤ 1 ∧
    (rank (simsOf trackS0.audioFeatures stateW.db candsW) 1).length ≤
      candsW.length ∧
    List.Pairwise simGE (rank (simsOf trackS0.audioFeatures stateW.db candsW) 1) ∧
    ∀ x : ℝ, ∃ k,
      (rank (simsOf trackS0.audioFeatures stateW.db candsW) 1).filter
          (fun e => e.similarity = x) =
        ((simsOf trackS0.audioFeatures stateW.db candsW).filter
          (fun e => e.similarity = x)).take k :=
  claim_C1_rank_contract envNop stateW "s0" candsW 1 trackS0 rfl
    (by decide) (by decide)

/-! ### Claim C4: the durable feature cache -/

lemma seedTail_extract_ok (env : Env) (tid path : String) (s3 : State)
    (v : Feats) (hx : env.extract path = some v) :
    seedTail env tid (some path, s3) =
      (.ok (some v), setFeatures (logEvent s3 (.extract tid path)) tid v) := by
  unfold seedTail
  dsimp only
  rw [hx]

lemma seed_compute_core (env : Env) (s2 : State) (tid u : String) (v : Feats)
    (hu : startsWithHttp u = true) (hh : env.http u = true)
    (hx : env.extract (pathFor tid) = some v) :
    ∃ s4, seedTail env tid (download_preview env s2 u tid) = (.ok (some v), s4) ∧
      s4.db = dbSet s2.db tid (fun t => { t with audioFeatures := v }) := by
  rcases hdp : download_preview env s2 u tid with ⟨p, s3⟩
  have hps : p = some (pathFor tid) := by
    have := download_preview_success env s2 u tid hu hh
    rw [hdp] at this
    exact this
  have hdb : s3.db = s2.db := by
    have := download_preview_db env s2 u tid
    rw [hdp] at this
    exact this
  subst hps
  rw [seedTail_extract_ok env tid (pathFor tid) s3 v hx]
  refine ⟨_, rfl, ?_⟩
  rw [show (setFeatures (logEvent s3 (.extract tid (pathFor tid))) tid v).db =
    dbSet s3.db tid (fun t => { t with audioFeatures := v }) from rfl, hdb]

lemma seedResolve_compute_success (env : Env) (s : State) (tr : TrackRec)
    (hit : SearchHit) (rest : List SearchHit) (v : Feats)
    (hempty : tr.audioFeatures = [])
    (hsearch : env.search (env.translate (seedSearchText tr)) = hit :: rest)
    (hu : startsWithHttp (env.details hit.id).previewUrl = true)
    (hh : env.http (env.details hit.id).previewUrl = true)
    (hx : env.extract (pathFor tr.spotifyId) = some v) :
    ∃ s4, seedResolve env s tr = (.ok (some v), s4) ∧
      ∀ tr0, dbGet s.db tr.spotifyId = some tr0 →
        ∃ tr', dbGet s4.db tr.spotifyId = some tr' ∧ tr'.audioFeatures = v := by
  unfold seedResolve
  rw [if_pos hempty]
  dsimp only
  rw [hsearch]
  dsimp only
  obtain ⟨s4, h1, h2⟩ := seed_compute_core env
    (if tr.previewUrl = "" then
      setPreviewUrl
        (logEvent s (.search tr.spotifyId (env.translate (seedSearchText tr))))
        tr.spotifyId (env.details hit.id).previewUrl
     else logEvent s (.search tr.spotifyId (env.translate (seedSearchText tr))))
    tr.spotifyId (env.details hit.id).previewUrl v hu hh hx
  refine ⟨s4, h1, ?_⟩
  intro tr0 h0
  rw [h2, dbGet_dbSet_same _ tr.spotifyId
    (fun t => { t with audioFeatures := v }) (fun _ => rfl)]
  by_cases hpu : tr.previewUrl = ""
  · rw [if_pos hpu]
    rw [show (setPreviewUrl
        (logEvent s (.search tr.spotifyId (env.translate (seedSearchText tr))))
        tr.spotifyId (env.details hit.id).previewUrl).db =
      dbSet s.db tr.spotifyId
        (fun t => { t with previewUrl := (env.details hit.id).previewUrl }) from rfl]
    rw [dbGet_dbSet_same _ tr.spotifyId
      (fun t => { t with previewUrl := (env.details hit.id).previewUrl })
      (fun _ => rfl), h0]
    exact ⟨_, rfl, rfl⟩
  · rw [if_neg hpu]
    rw [show (logEvent s (.search tr.spotifyId
        (env.translate (seedSearchText tr)))).db = s.db from rfl, h0]
    exact ⟨_, rfl, rfl⟩

/-- Part (a) of the claim, run-level: a populated `audio_features` field
short-circuits the whole compute chain — the run logs no search,
download or extract event for that id, and its row is left untouched. -/
lemma c4_no_recompute (env : Env) (s : State) (trackId : String)
    (cands : List StoredTrack) (limit : Nat) (tr : TrackRec)
    (h : dbGet s.db trackId = some tr) (hne : tr.audioFeatures ≠ []) :
    eventsFor trackId (getRecommendations env s trackId cands limit).2.log =
      eventsFor trackId s.log ∧
    dbGet (getRecommendations env s trackId cands limit).2.db trackId =
      some tr := by
  rw [getRecommendations_stored env s trackId cands limit tr h hne]
  have hp := candidatesLoop_preserves env tr.audioFeatures trackId tr cands s h hne
  rcases hlp : candidatesLoop env tr.audioFeatures s cands with ⟨r, s'⟩
  rw [hlp] at hp
  cases r with
  | error e => exact ⟨hp.2, hp.1⟩
  | ok sims => exact ⟨hp.2, hp.1⟩

/-- Part (b), run-level: a successful seed compute chain persists the
extracted vector, and the write survives the whole run. -/
lemma c4_seed_write_through (env : Env) (s : State) (trackId : String)
    (cands : List StoredTrack) (limit : Nat) (tr : TrackRec)
    (hit : SearchHit) (rest : List SearchHit) (v : Feats)
    (h : dbGet s.db trackId = some tr) (hempty : tr.audioFeatures = [])
    (hsearch : env.search (env.translate (seedSearchText tr)) = hit :: rest)
    (hu : startsWithHttp (env.details hit.id).previewUrl = true)
    (hh : env.http (env.details hit.id).previewUrl = true)
    (hx : env.extract (pathFor trackId) = some v) (hvne : v ≠ []) :
    ∃ tr', dbGet (getRecommendations env s trackId cands limit).2.db trackId =
      some tr' ∧ tr'.audioFeatures = v := by
  have hid : tr.spotifyId = trackId := dbGet_spotifyId h
  unfold getRecommendations
  rw [h]
  dsimp only
  obtain ⟨s4, hsr, himp⟩ := seedResolve_compute_success env s tr hit rest v
    hempty hsearch hu hh (by rw [hid]; exact hx)
  rw [hsr]
  dsimp only
  obtain ⟨tr', htr', hafv⟩ := himp tr (by rw [hid]; exact h)
  rw [hid] at htr'
  have hp := candidatesLoop_preserves env v trackId tr' cands s4 htr'
    (by rw [hafv]; exact hvne)
  rcases hlp : candidatesLoop env v s4 cands with ⟨r, s5⟩
  rw [hlp] at hp
  cases r with
  | error e => exact ⟨tr', hp.1, hafv⟩
  | ok sims => exact ⟨tr', hp.1, hafv⟩

/-- Part (c), step-level: a successful candidate compute chain persists
the extracted vector to the candidate's row when that row exists. -/
lemma c4_candidate_write_through (env : Env) (tf : Feats) (s : State)
    (c : StoredTrack) (song : TrackRec) (hit : SearchHit)
    (rest : List SearchHit) (v : Feats)
    (h : dbGet s.db c.id = some song) (hempty : song.audioFeatures = [])
    (hsearch : env.search (candSearchText c) = hit :: rest)
    (hu : startsWithHttp hit.previewUrl = true)
    (hh : env.http hit.previewUrl = true)
    (hx : env.extract (pathFor c.id) = some v) :
    ∃ song', dbGet (candidateStep env tf s c).2.db c.id = some song' ∧
      song'.audioFeatures = v := by
  unfold candidateStep
  have hcf : candidateFeatures env s c =
      candidateFeatures.candidateCompute env s c := by
    unfold candidateFeatures
    rw [h]
    dsimp only
    rw [if_pos hempty]
  rw [hcf]
  unfold candidateFeatures.candidateCompute
  rw [hsearch]
  dsimp only
  rcases hdp : download_preview env
      (logEvent s (.search c.id (candSearchText c))) hit.previewUrl c.id
    with ⟨p, s2⟩
  have hps : p = some (pathFor c.id) := by
    have := download_preview_success env
      (logEvent s (.search c.id (candSearchText c))) hit.previewUrl c.id hu hh
    rw [hdp] at this
    exact this
  have hdb2 : s2.db = s.db := by
    have := download_preview_db env
      (logEvent s (.search c.id (candSearchText c))) hit.previewUrl c.id
    rw [hdp] at this
    exact this
  subst hps
  dsimp only
  rw [hx]
  dsimp only
  have hg : dbGet (logEvent s2 (.extract c.id (pathFor c.id))).db c.id =
      some song := by
    rw [show (logEvent s2 (.extract c.id (pathFor c.id))).db = s2.db from rfl,
      hdb2, h]
  rw [hg]
  dsimp only
  have hfinal : dbGet (setFeatures (logEvent s2 (.extract c.id (pathFor c.id)))
      c.id v).db c.id = some { song with audioFeatures := v } := by
    rw [show (setFeatures (logEvent s2 (.extract c.id (pathFor c.id))) c.id v).db =
      dbSet s2.db c.id (fun t => { t with audioFeatures := v }) from rfl,
      dbGet_dbSet_same _ c.id (fun t => { t with audioFeatures := v })
        (fun _ => rfl), hdb2, h]
    rfl
  cases hcs : cosineSimilarity (vals tf) (vals v) with
  | error e => exact ⟨{ song with audioFeatures := v }, hfinal, rfl⟩
  | ok sim => exact ⟨{ song with audioFeatures := v }, hfinal, rfl⟩

/-- Claim C4: (a) once a track's persisted `audio_features` field is
populated (non-empty), a `get_recommendations` run logs no compute-chain
event (search, download, extract) tagged with that id and leaves its row
untouched — the stored vector is used as-is; (b) when the seed compute
chain succeeds, the extracted vector is written through to the seed's
row and the write survives the whole run; (c) when a candidate's compute
chain succeeds and the candidate's row exists, the vector is written
through to that row. -/
theorem claim_C4_feature_store :
    (∀ (env : Env) (s : State) (trackId : String) (cands : List StoredTrack)
        (limit : Nat) (tr : TrackRec),
      dbGet s.db trackId = some tr → tr.audioFeatures ≠ [] →
      eventsFor trackId (getRecommendations env s trackId cands limit).2.log =
        eventsFor trackId s.log ∧
      dbGet (getRecommendations env s trackId cands limit).2.db trackId =
        some tr) ∧
    (∀ (env : Env) (s : State) (trackId : String) (cands : List StoredTrack)
        (limit : Nat) (tr : TrackRec) (hit : SearchHit)
        (rest : List SearchHit) (v : Feats),
      dbGet s.db trackId = some tr → tr.audioFeatures = [] →
      env.search (env.translate (seedSearchText tr)) = hit :: rest →
      startsWithHttp (env.details hit.id).previewUrl = true →
      env.http (env.details hit.id).previewUrl = true →
      env.extract (pathFor trackId) = some v → v ≠ [] →
      ∃ tr', dbGet (getRecommendations env s trackId cands limit).2.db trackId =
        some tr' ∧ tr'.audioFeatures = v) ∧
    (∀ (env : Env) (tf : Feats) (s : State) (c : StoredTrack)
        (song : TrackRec) (hit : SearchHit) (rest : List SearchHit) (v : Feats),
      dbGet s.db c.id = some song → song.audioFeatures = [] →
      env.search (candSearchText c) = hit :: rest →
      startsWithHttp hit.previewUrl = true → env.http hit.previewUrl = true →
      env.extract (pathFor c.id) = some v →
      ∃ song', dbGet (candidateStep env tf s c).2.db c.id = some song' ∧
        song'.audioFeatures = v) :=
  ⟨fun env s trackId cands limit tr h hne =>
      c4_no_recompute env s trackId cands limit tr h hne,
   fun env s trackId cands limit tr hit rest v h he hs hu hh hx hv =>
      c4_seed_write_through env s trackId cands limit tr hit rest v
        h he hs hu hh hx hv,
   fun env tf s c song hit rest v h he hs hu hh hx =>
      c4_candidate_write_through env tf s c song hit rest v h he hs hu hh hx⟩

/-- A concrete environment exercising both compute chains. -/
def envC4 : Env where
  translate := id
  search := fun q =>
    if q = "SeedB" then [⟨"jb", "http://pb"⟩]
    else if q = "CandC AC" then [⟨"jc", "http://pc"⟩]
    else []
  details := fun i => if i = "jb" then ⟨"http://pb"⟩ else ⟨""⟩
  http := fun _ => true
  extract := fun p =>
    if p = pathFor "t4b" then some [("tempo", 7)]
    else if p = pathFor "c4c" then some [("tempo", 9)]
    else none

def trackT4b : TrackRec := ⟨"t4b", "SeedB", [], "", "x", []⟩

def trackC4c : TrackRec := ⟨"c4c", "CandC", [], "", "", []⟩

theorem claim_C4_feature_store_witness :
    (eventsFor "s0" (getRecommendations envC4 stateW "s0" candsW 5).2.log =
        eventsFor "s0" stateW.log ∧
      dbGet (getRecommendations envC4 stateW "s0" candsW 5).2.db "s0" =
        some trackS0) ∧
    (∃ tr', dbGet (getRecommendations envC4 ⟨[trackT4b], [], []⟩ "t4b" [] 5).2.db
        "t4b" = some tr' ∧ tr'.audioFeatures = [("tempo", 7)]) ∧
    (∃ song', dbGet (candidateStep envC4 [("tempo", 1)] ⟨[trackC4c], [], []⟩
        ⟨"c4c", "CandC", "AC"⟩).2.db "c4c" = some song' ∧
      song'.audioFeatures = [("tempo", 9)]) :=
  ⟨claim_C4_feature_store.1 envC4 stateW "s0" candsW 5 trackS0 rfl (by decide),
   claim_C4_feature_store.2.1 envC4 ⟨[trackT4b], [], []⟩ "t4b" [] 5 trackT4b
     ⟨"jb", "http://pb"⟩ [] [("tempo", 7)] rfl rfl rfl (by decide) rfl rfl
     (by decide),
   claim_C4_feature_store.2.2 envC4 [("tempo", 1)] ⟨[trackC4c], [], []⟩
     ⟨"c4c", "CandC", "AC"⟩ trackC4c ⟨"jc", "http://pc"⟩ [] [("tempo", 9)]
     rfl rfl rfl (by decide) rfl rfl⟩

/-! ### Claims C2 and C10: seed resolution failure modes -/

lemma download_preview_fail (env : Env) (s : State) (u i : String)
    (hfs : i ∉ s.fs) (hh : env.http u = false) :
    ∃ s', download_preview env s u i = (none, s') ∧ s'.db = s.db := by
  unfold download_preview
  by_cases hu : startsWithHttp u = true
  · rw [if_pos hu, if_neg hfs]
    simp only [logEvent, hh]
    exact ⟨_, rfl, rfl⟩
  · rw [if_neg hu]
    exact ⟨s, rfl, rfl⟩

/-- Claim C10: on the seed compute path with an empty stored
`preview_url`, the secondary catalog's preview URL is written to the
track row and saved before the download is attempted, so when the
download then fails the function returns `[]` while the `preview_url`
mutation persists in the database. -/
theorem claim_C10_preview_url_persists (env : Env) (s : State)
    (trackId : String) (cands : List StoredTrack) (limit : Nat)
    (tr : TrackRec) (hit : SearchHit) (rest : List SearchHit)
    (h : dbGet s.db trackId = some tr)
    (hempty : tr.audioFeatures = [])
    (hpu : tr.previewUrl = "")
    (hsearch : env.search (env.translate (seedSearchText tr)) = hit :: rest)
    (hfs : trackId ∉ s.fs)
    (hhttp : env.http (env.details hit.id).previewUrl = false) :
    (getRecommendations env s trackId cands limit).1 = .ok [] ∧
    dbGet (getRecommendations env s trackId cands limit).2.db trackId =
      some { tr with previewUrl := (env.details hit.id).previewUrl } := by
  have hid : tr.spotifyId = trackId := dbGet_spotifyId h
  unfold getRecommendations
  rw [h]
  dsimp only
  unfold seedResolve
  rw [if_pos hempty]
  dsimp only
  rw [hsearch]
  dsimp only
  rw [if_pos hpu]
  obtain ⟨s3, hdl, hdb3⟩ := download_preview_fail env
    (setPreviewUrl
      (logEvent s (.search tr.spotifyId (env.translate (seedSearchText tr))))
      tr.spotifyId (env.details hit.id).previewUrl)
    (env.details hit.id).previewUrl tr.spotifyId
    (by rw [hid]; exact hfs) hhttp
  rw [hdl]
  dsimp only [seedTail]
  refine ⟨rfl, ?_⟩
  rw [hdb3]
  rw [show (setPreviewUrl
      (logEvent s (.search tr.spotifyId (env.translate (seedSearchText tr))))
      tr.spotifyId (env.details hit.id).previewUrl).db =
    dbSet s.db tr.spotifyId
      (fun t => { t with previewUrl := (env.details hit.id).previewUrl }) from rfl]
  rw [hid, dbGet_dbSet_same _ trackId
    (fun t => { t with previewUrl := (env.details hit.id).previewUrl })
    (fun _ => rfl), h]
  rw [← hid]
  rfl

/-- Concrete environment for the four seed failure modes: seeds
`t1`..`t4` have empty stored features; for `t1` the catalog preview URL
is invalid, for `t2` the download gets a non-200, for `t3` the search is
empty, for `t4` the download succeeds but decoding fails. -/
def envC2 : Env where
  translate := id
  search := fun q =>
    if q = "q1" then [⟨"j1", ""⟩]
    else if q = "q2" then [⟨"j2", ""⟩]
    else if q = "q4" then [⟨"j4", ""⟩]
    else []
  details := fun i =>
    if i = "j1" then ⟨"notaurl"⟩
    else if i = "j2" then ⟨"http://ok2"⟩
    else if i = "j4" then ⟨"http://ok4"⟩
    else ⟨""⟩
  http := fun u => u == "http://ok4"
  extract := fun _ => none

def trackT1 : TrackRec := ⟨"t1", "q1", [], "", "", []⟩
def trackT2 : TrackRec := ⟨"t2", "q2", [], "", "", []⟩
def trackT3 : TrackRec := ⟨"t3", "q3", [], "", "", []⟩
def trackT4 : TrackRec := ⟨"t4", "q4", [], "", "", []⟩

def stateC2 : State := ⟨[trackT1, trackT2, trackT3, trackT4], [], []⟩

/-- Claim C2, counterexample: a seed whose secondary-catalog search
returns no results does not yield the empty list — the subscript
`search_jiosaavn(translated_text)[0]` raises IndexError, which
propagates to the caller. -/
theorem claim_C2_counterexample :
    (getRecommendations envC2 stateC2 "t3" [] 10).1 =
      .error .indexError := by rfl

/-- Claim C2 as amended: of the four seed resolution failure modes, only
a missing/invalid preview URL and a failed preview download degrade to
the empty list; an empty search result raises IndexError and an audio
decode failure raises AttributeError, both escaping to the caller. -/
theorem claim_C2_amended :
    (getRecommendations envC2 stateC2 "t1" [] 10).1 = .ok [] ∧
    (getRecommendations envC2 stateC2 "t2" [] 10).1 = .ok [] ∧
    (getRecommendations envC2 stateC2 "t3" [] 10).1 = .error .indexError ∧
    (getRecommendations envC2 stateC2 "t4" [] 10).1 = .error .attributeError :=
  ⟨rfl, rfl, rfl, rfl⟩

theorem claim_C10_preview_url_persists_witness :
    (getRecommendations envC2 stateC2 "t2" [] 10).1 = .ok [] ∧
    dbGet (getRecommendations envC2 stateC2 "t2" [] 10).2.db "t2" =
      some { trackT2 with previewUrl := (envC2.details "j2").previewUrl } :=
  claim_C10_preview_url_persists envC2 stateC2 "t2" [] 10 trackT2
    ⟨"j2", ""⟩ [] rfl rfl rfl rfl (by decide) rfl

/-! ### Claim C3: candidate failure handling -/

/-- Environment for the candidate failure modes: searching for `CandA`
finds nothing, `CandB`'s preview download gets a non-200, `CandD`'s
preview downloads but fails to decode. -/
def envC3 : Env where
  translate := id
  search := fun q =>
    if q = "CandD AD" then [⟨"jd", "http://pd"⟩]
    else if q = "CandB AB" then [⟨"jbb", "http://pbb"⟩]
    else []
  details := fun _ => ⟨""⟩
  http := fun u => u == "http://pd"
  extract := fun _ => none

def seedC3 : TrackRec := ⟨"sd", "SeedD", [], "", "", [("tempo", 2)]⟩

def trackCok : TrackRec := ⟨"cok", "CandOK", [], "", "", [("tempo", 3)]⟩

def stateC3 : State := ⟨[seedC3, trackCok], [], []⟩

/-- Claim C3, counterexample: a candidate whose preview decodes
unsuccessfully is not silently skipped — the `None.items()` at line 394
raises AttributeError, which escapes `get_recommendations`. -/
theorem claim_C3_counterexample :
    (getRecommendations envC3 stateC3 "sd" [⟨"d1", "CandD", "AD"⟩] 10).1 =
      .error .attributeError := by rfl

/-- Claim C3 as amended: a candidate with empty search results or a
failed preview download is silently skipped (omitted from the output, so
the list can be shorter than `limit`, here 1 < 10, with no exception),
but a candidate whose audio fails to decode raises an AttributeError
that escapes (see the counterexample). -/
theorem claim_C3_amended :
    (getRecommendations envC3 stateC3 "sd"
        [⟨"ca", "CandA", "AA"⟩, ⟨"cb", "CandB", "AB"⟩,
          ⟨"cok", "CandOK", "AO"⟩] 10).1 =
      .ok [⟨"cok", simVal (vals seedC3.audioFeatures)
        (vals trackCok.audioFeatures)⟩] := by rfl

/-! ### Claim C6: `download_preview` existence check -/

def envC6 : Env :=
  ⟨id, fun _ => [], fun _ => ⟨""⟩, fun _ => true, fun _ => none⟩

/-- Claim C6 evaluated at the failing input: the first call downloads
and stores `t1.mp3`; the second call, with the asset present, still
logs a second HTTP request (the membership test compares the bare id
`"t1"` against the file name `"t1.mp3"`, so it never matches) instead of
returning early. -/
theorem claim_C6_redownload_bug :
    (download_preview envC6 ⟨[], [], []⟩ "http://p" "t1").1 =
      some (pathFor "t1") ∧
    (download_preview envC6 ⟨[], [], []⟩ "http://p" "t1").2.fs = ["t1.mp3"] ∧
    (download_preview envC6 (download_preview envC6 ⟨[], [], []⟩ "http://p" "t1").2
        "http://p" "t1").1 = some (pathFor "t1") ∧
    (download_preview envC6 (download_preview envC6 ⟨[], [], []⟩ "http://p" "t1").2
        "http://p" "t1").2.log =
      [.download "t1" "http://p", .download "t1" "http://p"] :=
  ⟨rfl, rfl, rfl, rfl⟩

/-! ### Claim C5: deduplication -/

lemma dedup_id_replace (e : SimEntry) (acc : List SimEntry) :
    ((acc.map (fun x => if x.id == e.id then e else x)).map SimEntry.id) =
      acc.map SimEntry.id := by
  rw [List.map_map]
  refine List.map_congr_left ?_
  intro x _
  by_cases h : (x.id == e.id) = true
  · simp only [Function.comp_apply, if_pos h]
    exact ((by simpa using h : x.id = e.id)).symm
  · simp only [Function.comp_apply, if_neg h]

lemma any_id_eq_mem (e : SimEntry) (acc : List SimEntry) :
    (acc.any (fun x => x.id == e.id) = true) ↔ e.id ∈ acc.map SimEntry.id := by
  rw [List.any_eq_true]
  constructor
  · rintro ⟨x, hx, hbe⟩
    exact List.mem_map.mpr ⟨x, hx, by simpa using hbe⟩
  · intro hm
    obtain ⟨x, hx, hxe⟩ := List.mem_map.mp hm
    exact ⟨x, hx, by simp [hxe]⟩

lemma dedupById_ids_aux :
    ∀ (l : List SimEntry) (acc : List SimEntry),
      ((l.foldl (fun acc e =>
          if acc.any (fun x => x.id == e.id) then
            acc.map (fun x => if x.id == e.id then e else x)
          else acc ++ [e]) acc).map SimEntry.id) =
        (l.map SimEntry.id).foldl
          (fun a x => if x ∈ a then a else a ++ [x]) (acc.map SimEntry.id)
  | [], _ => rfl
  | e :: l, acc => by
    rw [List.foldl_cons, List.map_cons, List.foldl_cons]
    by_cases h : (acc.any (fun x => x.id == e.id)) = true
    · rw [if_pos h, if_pos ((any_id_eq_mem e acc).mp h)]
      rw [dedupById_ids_aux l _, dedup_id_replace]
    · rw [if_neg h, if_neg (fun hm => h ((any_id_eq_mem e acc).mpr hm))]
      rw [dedupById_ids_aux l _, List.map_append]
      rfl

lemma firstOccs_nodup_aux :
    ∀ (l acc : List String), acc.Nodup →
      (l.foldl (fun a x => if x ∈ a then a else a ++ [x]) acc).Nodup
  | [], _, h => h
  | x :: l, acc, h => by
    rw [List.foldl_cons]
    by_cases hm : x ∈ acc
    · rw [if_pos hm]
      exact firstOccs_nodup_aux l acc h
    · rw [if_neg hm]
      exact firstOccs_nodup_aux l _ (by simp [List.nodup_append, h, hm])

/-- Claim C5 as amended: `get_recommendations` itself performs no
deduplication and its output can repeat a track id (see the
counterexample); the deduplication happens in the dashboard caller,
after ranking and truncation: its dict-comprehension post-processing
(`dedupById`) keeps each id's first-occurrence position, so the
user-visible list contains each track id at most once. -/
theorem claim_C5_dedup_amended (l : List SimEntry) :
    (dedupById l).map SimEntry.id = firstOccs (l.map SimEntry.id) ∧
    ((dedupById l).map SimEntry.id).Nodup := by
  unfold dedupById firstOccs
  have h := dedupById_ids_aux l []
  refine ⟨h, ?_⟩
  rw [h]
  exact firstOccs_nodup_aux _ [] List.nodup_nil

/-- Claim C5, counterexample: with a duplicated candidate id in the
input, `get_recommendations` ranks both occurrences and returns the same
track id twice — the recommendation output is not deduplicated. -/
theorem claim_C5_counterexample :
    (getRecommendations envNop stateW "s0"
        [⟨"c1", "CandA", "A"⟩, ⟨"c1", "CandA", "A"⟩] 10).1 =
      .ok [⟨"c1", simVal [2] [3]⟩, ⟨"c1", simVal [2] [3]⟩] ∧
    ¬ (["c1", "c1"] : List String).Nodup := by
  constructor
  · have h : (getRecommendations envNop stateW "s0"
        [⟨"c1", "CandA", "A"⟩, ⟨"c1", "CandA", "A"⟩] 10).1 =
        .ok (rank [⟨"c1", simVal [2] [3]⟩, ⟨"c1", simVal [2] [3]⟩] 10) := rfl
    rw [h]
    unfold rank
    rw [show List.insertionSort simGE
        [⟨"c1", simVal [2] [3]⟩, ⟨"c1", simVal [2] [3]⟩] =
      List.orderedInsert simGE ⟨"c1", simVal [2] [3]⟩
        [⟨"c1", simVal [2] [3]⟩] from rfl]
    rw [List.orderedInsert_of_le simGE _ (le_refl _)]
    rfl
  · decide

/-! ### Claim C7: zero-norm candidates -/

/-- The all-zero 8-feature dictionary of the spec's scenario. -/
def zeroFeats : Feats :=
  [("tempo", 0), ("chroma_stft_mean", 0), ("rmse_mean", 0),
   ("spectral_centroid_mean", 0), ("spectral_bandwidth_mean", 0),
   ("rolloff_mean", 0), ("zero_crossing_rate_mean", 0), ("mfcc_mean", 0)]

def seedRecC7 (a : Feats) : TrackRec := ⟨"s7", "Seed7", [], "", "", a⟩

def candRecC7 : TrackRec := ⟨"c7", "Cand7", [], "", "", zeroFeats⟩

def stateC7 (a : Feats) : State := ⟨[seedRecC7 a, candRecC7], [], []⟩

def candC7 : StoredTrack := ⟨"c7", "Cand7", "A7"⟩

lemma c7_run (a : Feats) (h1 : a ≠ []) (h2 : (vals a).length = 8) :
    (getRecommendations envNop (stateC7 a) "s7" [candC7] 10).1 =
      .ok [⟨"c7", 0⟩] := by
  have hres : ∀ c ∈ [candC7], featsAt (stateC7 a).db c.id ≠ [] ∧
      (vals (seedRecC7 a).audioFeatures).length =
        (vals (featsAt (stateC7 a).db c.id)).length := by
    intro c hc
    rw [List.mem_singleton] at hc
    subst hc
    refine ⟨?_, ?_⟩
    · rw [show featsAt (stateC7 a).db candC7.id = zeroFeats from rfl]
      decide
    · rw [show featsAt (stateC7 a).db candC7.id = zeroFeats from rfl,
        show vals (seedRecC7 a).audioFeatures = vals a from rfl, h2]
      rfl
  rw [getRecommendations_stored envNop (stateC7 a) "s7" [candC7] 10
      (seedRecC7 a) rfl h1,
    candidatesLoop_all_stored envNop (seedRecC7 a).audioFeatures [candC7]
      (stateC7 a) hres]
  dsimp only
  rw [show simsOf (seedRecC7 a).audioFeatures (stateC7 a).db [candC7] =
    [⟨"c7", simVal (vals a) (List.replicate 8 0)⟩] from rfl]
  rw [show rank [⟨"c7", simVal (vals a) (List.replicate 8 0)⟩] 10 =
    [⟨"c7", simVal (vals a) (List.replicate 8 0)⟩] from rfl]
  rw [simVal_replicate_zero]

/-- Claim C7 as amended: a candidate whose 8-feature vector has zero
norm is not skipped and causes no division by zero — sklearn substitutes
1 for the zero norm, so the candidate is ranked with similarity exactly
0 and appears in the output. -/
theorem claim_C7_zero_norm_amended (a : Feats) (h1 : a ≠ [])
    (h2 : (vals a).length = 8) :
    (getRecommendations envNop (stateC7 a) "s7" [candC7] 10).1 =
      .ok [⟨"c7", 0⟩] :=
  c7_run a h1 h2

/-- The seed feature dictionary of the spec's §8 scenario. -/
def specVec : Feats :=
  [("tempo", 120), ("chroma_stft_mean", 1/2), ("rmse_mean", 1/10),
   ("spectral_centroid_mean", 2000), ("spectral_bandwidth_mean", 1500),
   ("rolloff_mean", 3000), ("zero_crossing_rate_mean", 1/20),
   ("mfcc_mean", -5)]

/-- Claim C7, counterexample: with the spec's own scenario vector as the
seed and an all-zero candidate, the zero-norm candidate appears in the
ranked output (with similarity 0) rather than being skipped. -/
theorem claim_C7_counterexample :
    (getRecommendations envNop (stateC7 specVec) "s7" [candC7] 10).1 =
      .ok [⟨"c7", 0⟩] ∧
    "c7" ∈ ([⟨"c7", (0 : ℝ)⟩] : List SimEntry).map SimEntry.id :=
  ⟨c7_run specVec (by decide) (by decide), by decide⟩

theorem claim_C7_zero_norm_amended_witness :
    specVec ≠ [] ∧ (vals specVec).length = 8 ∧
    (getRecommendations envNop (stateC7 specVec) "s7" [candC7] 10).1 =
      .ok [⟨"c7", 0⟩] :=
  ⟨by decide, by decide,
    claim_C7_zero_norm_amended specVec (by decide) (by decide)⟩

/-! ### Claim C8: no key-set assertion -/

lemma sumSq_pair_34 : sumSq [(3 : ℚ), 4] ≠ 0 := by
  norm_num [sumSq, dotq]

lemma sumSq_single_120 : sumSq (vals [("tempo", (120 : ℚ))]) ≠ 0 := by
  norm_num [sumSq, dotq, vals]

lemma candidateStep_stored_mismatch (env : Env) (tf : Feats) (s : State)
    (c : StoredTrack) (song : TrackRec) (h : dbGet s.db c.id = some song)
    (hne : song.audioFeatures ≠ [])
    (hlen : (vals tf).length ≠ (vals song.audioFeatures).length) :
    candidateStep env tf s c = (.error .valueError, s) := by
  unfold candidateStep
  rw [candidateFeatures_stored env s c song h hne]
  dsimp only
  unfold cosineSimilarity
  rw [if_neg hlen]

def seedRecC8 (f : Feats) : TrackRec := ⟨"s8", "Seed8", [], "", "", f⟩

def candRecC8 (g : Feats) : TrackRec := ⟨"c8", "Cand8", [], "", "", g⟩

def stateC8 (f g : Feats) : State := ⟨[seedRecC8 f, candRecC8 g], [], []⟩

def candC8 : StoredTrack := ⟨"c8", "Cand8", "A8"⟩

/-- Claim C8 as amended: the ranking performs no key-set assertion at
all.  For any two non-empty feature dictionaries, whatever their key
sets: if the value lists have equal length the similarity is silently
computed from the values in each dictionary's own order, and only a
length mismatch aborts — with an (uncaught) ValueError from the
sklearn shape check, not an assertion. -/
theorem claim_C8_no_assertion_amended (f g : Feats) (hf : f ≠ [])
    (hg : g ≠ []) :
    ((vals f).length = (vals g).length →
      (getRecommendations envNop (stateC8 f g) "s8" [candC8] 10).1 =
        .ok [⟨"c8", simVal (vals f) (vals g)⟩]) ∧
    ((vals f).length ≠ (vals g).length →
      (getRecommendations envNop (stateC8 f g) "s8" [candC8] 10).1 =
        .error .valueError) := by
  constructor
  · intro hlen
    have hres : ∀ c ∈ [candC8], featsAt (stateC8 f g).db c.id ≠ [] ∧
        (vals (seedRecC8 f).audioFeatures).length =
          (vals (featsAt (stateC8 f g).db c.id)).length := by
      intro c hc
      rw [List.mem_singleton] at hc
      subst hc
      rw [show featsAt (stateC8 f g).db candC8.id = g from rfl]
      exact ⟨hg, hlen⟩
    rw [getRecommendations_stored envNop (stateC8 f g) "s8" [candC8] 10
        (seedRecC8 f) rfl hf,
      candidatesLoop_all_stored envNop (seedRecC8 f).audioFeatures [candC8]
        (stateC8 f g) hres]
    rfl
  · intro hlen
    rw [getRecommendations_stored envNop (stateC8 f g) "s8" [candC8] 10
        (seedRecC8 f) rfl hf]
    unfold candidatesLoop
    rw [candidateStep_stored_mismatch envNop (seedRecC8 f).audioFeatures
      (stateC8 f g) candC8 (candRecC8 g) rfl hg hlen]

/-- Claim C8, counterexample: a seed and a candidate with entirely
different key sets (equal sizes, equal values) do not trip any
precondition check — the similarity is silently computed, and here even
evaluates to a perfect 1. -/
theorem claim_C8_counterexample :
    (getRecommendations envNop
        (stateC8 [("a", 3), ("b", 4)] [("u", 3), ("v", 4)]) "s8"
        [candC8] 10).1 =
      .ok [⟨"c8", 1⟩] := by
  have h : (getRecommendations envNop
      (stateC8 [("a", 3), ("b", 4)] [("u", 3), ("v", 4)]) "s8"
      [candC8] 10).1 =
      .ok [⟨"c8", simVal [3, 4] [3, 4]⟩] := rfl
  rw [h, simVal_self [3, 4] sumSq_pair_34]

theorem claim_C8_no_assertion_amended_witness :
    (getRecommendations envNop
        (stateC8 [("a", 3), ("b", 7)] [("u", 3), ("v", 7)]) "s8"
        [candC8] 10).1 =
      .ok [⟨"c8", simVal [3, 7] [3, 7]⟩] :=
  (claim_C8_no_assertion_amended [("a", 3), ("b", 7)] [("u", 3), ("v", 7)]
    (by decide) (by decide)).1 (by decide)

/-! ### Claim C9: self-similarity -/

def seedRecC9 (a : Feats) : TrackRec := ⟨"s9", "Seed9", [], "", "", a⟩

def candRecC9 (a : Feats) : TrackRec := ⟨"c9", "Cand9", [], "", "", a⟩

def stateC9 (a : Feats) : State := ⟨[seedRecC9 a, candRecC9 a], [], []⟩

def candC9 : StoredTrack := ⟨"c9", "Cand9", "A9"⟩

/-- Claim C9: ranking a candidate whose feature dictionary equals the
seed's yields similarity exactly 1 (in the real-valued model the
"floating tolerance" is not needed), for any non-empty dictionary of
nonzero norm. -/
theorem claim_C9_self_similarity (a : Feats) (h1 : a ≠ [])
    (h2 : sumSq (vals a) ≠ 0) :
    (getRecommendations envNop (stateC9 a) "s9" [candC9] 1).1 =
      .ok [⟨"c9", 1⟩] := by
  have hres : ∀ c ∈ [candC9], featsAt (stateC9 a).db c.id ≠ [] ∧
      (vals (seedRecC9 a).audioFeatures).length =
        (vals (featsAt (stateC9 a).db c.id)).length := by
    intro c hc
    rw [List.mem_singleton] at hc
    subst hc
    rw [show featsAt (stateC9 a).db candC9.id = a from rfl]
    exact ⟨h1, rfl⟩
  rw [getRecommendations_stored envNop (stateC9 a) "s9" [candC9] 1
      (seedRecC9 a) rfl h1,
    candidatesLoop_all_stored envNop (seedRecC9 a).audioFeatures [candC9]
      (stateC9 a) hres]
  dsimp only
  rw [show simsOf (seedRecC9 a).audioFeatures (stateC9 a).db [candC9] =
    [⟨"c9", simVal (vals a) (vals a)⟩] from rfl]
  rw [show rank [⟨"c9", simVal (vals a) (vals a)⟩] 1 =
    [⟨"c9", simVal (vals a) (vals a)⟩] from rfl]
  rw [simVal_self (vals a) h2]

theorem claim_C9_self_similarity_witness :
    (getRecommendations envNop (stateC9 [("tempo", 120)]) "s9" [candC9] 1).1 =
      .ok [⟨"c9", 1⟩] :=
  claim_C9_self_similarity [("tempo", 120)] (by decide) sumSq_single_120

end Emusic
